import Mathlib

/-!
Shallow embedding of the valuation and aggregation engine of the
invest_master repository:

* the FX rate resolver            (src/services/fx_service.py),
* the position / cash balance SQL aggregations
                                  (src/repositories/portfolio_repo.py),
* the portfolio snapshot assembler (src/services/portfolio_service.py),
* the distribution analyzer       (src/services/analysis_service.py).

Modelling conventions: SQL numerics and Python floats are modelled as exact
rationals; Python rounding to two decimals (round(x, 2), pandas .round(2))
is modelled as round-half-up on exact rationals; dates are naturals (only
the comparison date <= as_of_date occurs); nullable columns are Option;
SQL SUM skips NULL terms and is NULL on an all-NULL column; the id columns
of tb_assets and tb_accounts are primary keys, so the SQL joins are
modelled by filtering the transaction list per asset / account row.
The repository layer is the database boundary: the service-layer functions
take the repository query results as arguments.
-/

/-- Transaction types appearing in tb_transactions. -/
inductive TxType where
  | BUY
  | SELL
  | DIVIDEND
  | INTEREST
  | DEPOSIT
  | WITHDRAW
  | TAX
  | FEE
  deriving DecidableEq, Repr

/-- One row of tb_transactions (the columns read by the valuation core). -/
structure Transaction where
  date : Nat
  ttype : TxType
  accountId : Option Nat
  assetId : Option Nat
  qty : Option ℚ
  price : Option ℚ
  cashFlow : ℚ
  currency : String
  deriving DecidableEq, Repr

/-- One row of tb_assets (the columns read by get_positions). -/
structure Asset where
  id : Nat
  ticker : String
  name : String
  assetClass : String
  subClass : Option String
  currency : String
  deriving DecidableEq, Repr

/-- One row of tb_accounts (the columns read by get_cash_balances). -/
structure Account where
  id : Nat
  name : String
  deriving DecidableEq, Repr

/-- The optional filter `AND t.date <= %(as_of_date)s` (absent when
as_of_date is None). -/
def dateLe (t : Transaction) (asOf : Option Nat) : Bool :=
  match asOf with
  | none => true
  | some d => decide (t.date ≤ d)

/-- WHERE clause of get_positions, restricted to the group of the asset row
with id `aid`: type IN ('BUY','SELL') AND qty IS NOT NULL AND the date
filter AND the join condition t.asset_id = a.id. -/
def posRowFilter (asOf : Option Nat) (aid : Nat) (t : Transaction) : Bool :=
  (t.ttype == TxType.BUY || t.ttype == TxType.SELL) && t.qty.isSome &&
    dateLe t asOf && t.assetId == some aid

/-- The (non-NULL, by the WHERE clause) qty of a position row. -/
def txQty (t : Transaction) : ℚ := t.qty.getD 0

/-- SUM(t.qty) over one group of get_positions. -/
def positionTotalQty (ledger : List Transaction) (asOf : Option Nat) (aid : Nat) : ℚ :=
  ((ledger.filter (posRowFilter asOf aid)).map txQty).sum

/-- SQL SUM over an expression column: NULL terms are skipped, and the sum
of an empty or all-NULL column is NULL. -/
def sqlSum (l : List (Option ℚ)) : Option ℚ :=
  match l.filterMap id with
  | [] => none
  | v :: vs => some (v :: vs).sum

/-- Numerator column of avg_cost:
CASE WHEN t.qty > 0 THEN t.qty * t.price ELSE 0 END
(the product is NULL when t.price is NULL). -/
def avgCostNumTerm (t : Transaction) : Option ℚ :=
  if 0 < txQty t then t.price.map (fun p => txQty t * p) else some 0

/-- Denominator column of avg_cost:
CASE WHEN t.qty > 0 THEN t.qty ELSE 0 END. -/
def avgCostDenTerm (t : Transaction) : ℚ :=
  if 0 < txQty t then txQty t else 0

/-- avg_cost of one group of get_positions:
SUM(numerator) / NULLIF(SUM(denominator), 0), NULL-propagating. -/
def positionAvgCost (ledger : List Transaction) (asOf : Option Nat) (aid : Nat) : Option ℚ :=
  let rows := ledger.filter (posRowFilter asOf aid)
  match sqlSum (rows.map avgCostNumTerm),
      (if (rows.map avgCostDenTerm).sum = 0 then none else some (rows.map avgCostDenTerm).sum) with
  | some n, some d => some (n / d)
  | _, _ => none

/-- One derived position row (the SELECT list of get_positions). -/
structure Position where
  assetId : Nat
  ticker : String
  name : String
  assetClass : String
  subClass : Option String
  currency : String
  totalQty : ℚ
  avgCost : Option ℚ
  deriving DecidableEq, Repr

/-- The aggregated row of get_positions for one row of tb_assets. -/
def positionOfAsset (ledger : List Transaction) (asOf : Option Nat) (a : Asset) : Position :=
  { assetId := a.id, ticker := a.ticker, name := a.name,
    assetClass := a.assetClass, subClass := a.subClass, currency := a.currency,
    totalQty := positionTotalQty ledger asOf a.id,
    avgCost := positionAvgCost ledger asOf a.id }

/-- ORDER BY a.asset_class, a.currency, a.ticker. -/
def posLe (p q : Position) : Bool :=
  decide (p.assetClass < q.assetClass) ||
    (p.assetClass == q.assetClass &&
      (decide (p.currency < q.currency) ||
        (p.currency == q.currency && decide (p.ticker ≤ q.ticker))))

/-- PortfolioRepository.get_positions: BUY/SELL rows with non-NULL qty up to
the as-of date, grouped per asset row, HAVING SUM(t.qty) > 0.0001, ordered
by (asset_class, currency, ticker).  A group of tb_assets with no matching
transaction has SUM(t.qty) = 0 and is equally removed by the HAVING filter,
so mapping over all asset rows is faithful to the SQL GROUP BY. -/
def getPositions (assets : List Asset) (ledger : List Transaction) (asOf : Option Nat) :
    List Position :=
  (((assets.map (positionOfAsset ledger asOf)).filter
      (fun p => decide ((1 : ℚ)/10000 < p.totalQty))).mergeSort posLe)

/-- One derived cash balance row (the SELECT list of get_cash_balances). -/
structure CashBalance where
  accountId : Nat
  accountName : String
  currency : String
  balance : ℚ
  deriving DecidableEq, Repr

/-- WHERE/JOIN clause of get_cash_balances, restricted to the group of the
account row with id `aid` and of the currency `c`. -/
def cashRowFilter (asOf : Option Nat) (aid : Nat) (c : String) (t : Transaction) : Bool :=
  dateLe t asOf && t.accountId == some aid && t.currency == c

/-- SUM(t.cash_flow) over one group of get_cash_balances. -/
def cashBalanceSum (ledger : List Transaction) (asOf : Option Nat) (aid : Nat) (c : String) : ℚ :=
  ((ledger.filter (cashRowFilter asOf aid c)).map (·.cashFlow)).sum

/-- The currencies for which the account with id `aid` has a joined
transaction row, i.e. the group keys present for that account. -/
def accountCurrencies (ledger : List Transaction) (asOf : Option Nat) (aid : Nat) : List String :=
  ((ledger.filter (fun t => dateLe t asOf && t.accountId == some aid)).map (·.currency)).dedup

/-- ORDER BY acc.name, t.currency. -/
def cbLe (x y : CashBalance) : Bool :=
  decide (x.accountName < y.accountName) ||
    (x.accountName == y.accountName && decide (x.currency ≤ y.currency))

/-- PortfolioRepository.get_cash_balances: SUM(cash_flow) over transactions
of every type up to the as-of date, grouped by (account row, currency),
HAVING ABS(SUM(cash_flow)) > 0.01, ordered by (account name, currency). -/
def getCashBalances (accounts : List Account) (ledger : List Transaction)
    (asOf : Option Nat) : List CashBalance :=
  ((accounts.flatMap (fun acc =>
      (accountCurrencies ledger asOf acc.id).filterMap (fun c =>
        if (1 : ℚ)/100 < |cashBalanceSum ledger asOf acc.id c| then
          some ⟨acc.id, acc.name, c, cashBalanceSum ledger asOf acc.id c⟩
        else none))).mergeSort cbLe)

/-- The static fallback rate table FALLBACK_RATES of fx_service.py. -/
def FALLBACK_RATES : List ((String × String) × ℚ) :=
  [(("USD", "CNY"), 7.25), (("HKD", "CNY"), 0.93), (("CNY", "CNY"), 1.0),
   (("EUR", "CNY"), 7.85), (("GBP", "CNY"), 9.10), (("JPY", "CNY"), 0.048)]

/-- FxService state: the target currency and the rate map loaded from
tb_exchange_rates (from_currency -> rate, keyed uniquely). -/
structure FxService where
  target : String
  dbRates : List (String × ℚ)
  deriving DecidableEq, Repr

/-- Result of get_rate; the missing-rate warning printout of the source is
modelled as the `warned` flag. -/
structure RateResult where
  rate : ℚ
  warned : Bool
  deriving DecidableEq, Repr

/-- `to_currency = to_currency or self._target`: Python `or` replaces both
None and the empty (falsy) string by the target. -/
def FxService.resolveTo (fx : FxService) (toC : Option String) : String :=
  match toC with
  | none => fx.target
  | some s => if s = "" then fx.target else s

/-- FxService.get_rate: same currency -> 1.0; else the database rate when
to_currency is the target and from_currency is in the loaded map; else the
static fallback table; else 1.0 with a warning.  Total: never raises. -/
def FxService.getRate (fx : FxService) (fromC : String) (toC : Option String) : RateResult :=
  let toCur := fx.resolveTo toC
  if fromC = toCur then ⟨1, false⟩
  else
    match (if toCur = fx.target then fx.dbRates.lookup fromC else none) with
    | some r => ⟨r, false⟩
    | none =>
      match FALLBACK_RATES.lookup (fromC, toCur) with
      | some r => ⟨r, false⟩
      | none => ⟨1, true⟩

/-- FxService.convert: None amounts become 0.0, otherwise amount * rate. -/
def FxService.convert (fx : FxService) (amount : Option ℚ) (fromC : String)
    (toC : Option String) : ℚ :=
  match amount with
  | none => 0
  | some a => a * (fx.getRate fromC toC).rate

/-- One row of the portfolio DataFrame built by PortfolioService. -/
structure LineItem where
  itemType : String
  ticker : String
  name : String
  assetClass : String
  subClass : String
  currency : String
  qty : ℚ
  avgCost : ℚ
  latestPrice : ℚ
  priceSource : String
  valueLocal : ℚ
  valueBase : ℚ
  deriving DecidableEq, Repr

/-- One SECURITY row of PortfolioService._build_security_df: market price
by ticker when available, else the average cost (a NULL avg_cost is read as
0.0 by `float(pos['avg_cost']) if pos['avg_cost'] else 0.0`). -/
def secLine (fx : FxService) (prices : List (String × ℚ)) (pos : Position) : LineItem :=
  let avgCost : ℚ := pos.avgCost.getD 0
  let latestPrice : ℚ :=
    match prices.lookup pos.ticker with
    | some p => p
    | none => avgCost
  let priceSource : String :=
    match prices.lookup pos.ticker with
    | some _ => "market"
    | none => "cost"
  { itemType := "SECURITY", ticker := pos.ticker, name := pos.name,
    assetClass := pos.assetClass, subClass := pos.subClass.getD "",
    currency := pos.currency, qty := pos.totalQty, avgCost := avgCost,
    latestPrice := latestPrice, priceSource := priceSource,
    valueLocal := pos.totalQty * latestPrice,
    valueBase := fx.convert (some (pos.totalQty * latestPrice)) pos.currency none }

/-- PortfolioService._build_security_df on the queried positions. -/
def buildSecurityRows (fx : FxService) (prices : List (String × ℚ))
    (positions : List Position) : List LineItem :=
  positions.map (secLine fx prices)

/-- One CASH row of PortfolioService._build_cash_df. -/
def cashLine (fx : FxService) (cb : CashBalance) : LineItem :=
  { itemType := "CASH", ticker := cb.accountName ++ "_" ++ cb.currency,
    name := cb.accountName ++ " 现金", assetClass := "CASH",
    subClass := cb.currency, currency := cb.currency, qty := cb.balance,
    avgCost := 1, latestPrice := 1, priceSource := "N/A",
    valueLocal := cb.balance,
    valueBase := fx.convert (some cb.balance) cb.currency none }

/-- PortfolioService._build_cash_df: one CASH row per queried balance,
skipping balances <= 0. -/
def buildCashRows (fx : FxService) (cashBalances : List CashBalance) : List LineItem :=
  (cashBalances.filter (fun cb => decide ((0 : ℚ) < cb.balance))).map (cashLine fx)

/-- df.sort_values(['asset_class', 'currency', 'ticker']). -/
def liLe (x y : LineItem) : Bool :=
  decide (x.assetClass < y.assetClass) ||
    (x.assetClass == y.assetClass &&
      (decide (x.currency < y.currency) ||
        (x.currency == y.currency && decide (x.ticker ≤ y.ticker))))

/-- PortfolioService.get_full_portfolio on the queried positions, cash
balances and latest market prices: securities and cash concatenated and
sorted. -/
def getFullPortfolio (fx : FxService) (positions : List Position)
    (cashBalances : List CashBalance) (prices : List (String × ℚ)) : List LineItem :=
  (buildSecurityRows fx prices positions ++ buildCashRows fx cashBalances).mergeSort liLe

/-- PortfolioService._schema_columns: the column names of the output
DataFrame; the value column name depends on the base currency. -/
def schemaColumns (base : String) : List String :=
  ["type", "ticker", "name", "asset_class", "sub_class", "currency", "qty",
   "avg_cost", "latest_price", "price_source", "value_local",
   "value_" ++ base.toLower]

/-- The DataFrame handed from PortfolioService to AnalysisService: its
column names together with its rows. -/
structure PortfolioDf where
  cols : List String
  rows : List LineItem
  deriving DecidableEq, Repr

/-- AnalysisService state: the copied DataFrame and the base currency. -/
structure AnalysisService where
  dfCols : List String
  dfRows : List LineItem
  base : String
  deriving DecidableEq, Repr

/-- The value column name `value_{base_currency.lower()}`. -/
def valColName (base : String) : String := "value_" ++ base.toLower

/-- AnalysisService.__init__: copies the DataFrame and raises ValueError
when the value column of the base currency is missing.  All analysis
methods below are pure functions of the constructed service, so the stored
DataFrame is never mutated. -/
def mkAnalysisService (pdf : PortfolioDf) (base : String) : Except String AnalysisService :=
  if valColName base ∈ pdf.cols then Except.ok ⟨pdf.cols, pdf.rows, base⟩
  else Except.error ("portfolio_df missing column " ++ valColName base)

/-- Rounding to two decimal places (Python round(x, 2), pandas .round(2)),
modelled as round-half-up on exact rationals. -/
def round2 (x : ℚ) : ℚ := (round (100 * x) : ℤ) / 100

/-- ASSET_CLASS_LABELS of analysis_service.py. -/
def ASSET_CLASS_LABELS : List (String × String) :=
  [("EQUITY", "股票"), ("BOND", "债券"), ("COMMODITY", "商品"),
   ("REITS", "REITs"), ("CASH", "现金"), ("ALTERNATIVE", "另类"),
   ("MULTI", "混合"), ("BENCHMARK", "基准指数")]

/-- CURRENCY_LABELS of analysis_service.py. -/
def CURRENCY_LABELS : List (String × String) :=
  [("CNY", "人民币 (CNY)"), ("USD", "美元 (USD)"), ("HKD", "港币 (HKD)"),
   ("EUR", "欧元 (EUR)"), ("GBP", "英镑 (GBP)"), ("JPY", "日元 (JPY)")]

/-- The total of the value column over the whole DataFrame. -/
def totalValue (s : AnalysisService) : ℚ := (s.dfRows.map (·.valueBase)).sum

/-- One aggregated distribution row. -/
structure DistRow where
  key : String
  label : String
  value : ℚ
  weightPct : ℚ
  count : Nat
  hasCostOnly : Bool
  deriving DecidableEq, Repr

/-- groupby(col, sort=False): the group keys in first-occurrence order. -/
def groupKeys (key : LineItem → String) (rows : List LineItem) : List String :=
  (rows.map key).dedup

/-- The rows of one group. -/
def groupRows (key : LineItem → String) (rows : List LineItem) (k : String) : List LineItem :=
  rows.filter (fun r => key r == k)

/-- One aggregated row: value sum, weight_pct = value / total * 100 rounded
to 2 decimals, the rounded value, the item count, and the
has_cost_only flag (any constituent with price_source = 'cost'). -/
def distRow (labels : List (String × String)) (key : LineItem → String)
    (s : AnalysisService) (k : String) : DistRow :=
  let rows := groupRows key s.dfRows k
  let v : ℚ := (rows.map (·.valueBase)).sum
  { key := k, label := (labels.lookup k).getD k, value := round2 v,
    weightPct := round2 (v / totalValue s * 100), count := rows.length,
    hasCostOnly := rows.any (fun r => r.priceSource == "cost") }

/-- sort_values('value', ascending=False): descending by rounded value. -/
def distGe (x y : DistRow) : Bool := decide (y.value ≤ x.value)

/-- Common shape of get_asset_class_distribution and
get_currency_distribution: empty when the total is zero, else one
aggregated row per group key, sorted by descending value.  The two source
functions differ only in the grouping column and the label map (and the
source currency version has no has_cost_only column; carrying it here is
harmless extra output). -/
def distribution (labels : List (String × String)) (key : LineItem → String)
    (s : AnalysisService) : List DistRow :=
  if totalValue s = 0 then []
  else ((groupKeys key s.dfRows).map (distRow labels key s)).mergeSort distGe

/-- AnalysisService.get_asset_class_distribution. -/
def getAssetClassDistribution (s : AnalysisService) : List DistRow :=
  distribution ASSET_CLASS_LABELS (·.assetClass) s

/-- AnalysisService.get_currency_distribution. -/
def getCurrencyDistribution (s : AnalysisService) : List DistRow :=
  distribution CURRENCY_LABELS (·.currency) s

/-- One row of get_account_distribution. -/
structure AccountRow where
  name : String
  currency : String
  qty : ℚ
  value : ℚ
  weightPct : ℚ
  deriving DecidableEq, Repr

/-- AnalysisService.get_account_distribution: empty when the total is zero,
else the CASH rows only, each weighted against the total of the whole
DataFrame (securities included). -/
def getAccountDistribution (s : AnalysisService) : List AccountRow :=
  if totalValue s = 0 then []
  else
    (s.dfRows.filter (fun r => r.itemType == "CASH")).map (fun r =>
      { name := r.name, currency := r.currency, qty := r.qty,
        value := round2 r.valueBase,
        weightPct := round2 (r.valueBase / totalValue s * 100) })

/-- The record returned by AnalysisService.get_summary. -/
structure Summary where
  totalValue : ℚ
  securityValue : ℚ
  cashValue : ℚ
  baseCurrency : String
  positionCount : Nat
  priceWarnCount : Nat
  deriving DecidableEq, Repr

/-- AnalysisService.get_summary. -/
def getSummary (s : AnalysisService) : Summary :=
  { totalValue := round2 (totalValue s),
    securityValue :=
      round2 (((s.dfRows.filter (fun r => r.itemType == "SECURITY")).map (·.valueBase)).sum),
    cashValue :=
      round2 (((s.dfRows.filter (fun r => r.itemType == "CASH")).map (·.valueBase)).sum),
    baseCurrency := s.base,
    positionCount := (s.dfRows.filter (fun r => r.itemType == "SECURITY")).length,
    priceWarnCount := (s.dfRows.filter (fun r => r.priceSource == "cost")).length }

/-!  ## Theorems for the claims  -/

/-- C1: for every pair of currencies (non-empty codes; the Python
`to_currency or target` treats the empty string as absent), get_rate
follows the ordered chain: 1.0 for identical currencies without consulting
any source; else the persisted database rate when the target currency is
requested and the from-currency is in the loaded map; else the static
fallback table entry; else 1.0 with a missing-rate warning.  The embedded
function is total, so get_rate never raises. -/
theorem C1_get_rate_chain (fx : FxService) (f t : String) (ht : t ≠ "") :
    (f = t → fx.getRate f (some t) = ⟨1, false⟩) ∧
    (f ≠ t → t = fx.target → ∀ r, fx.dbRates.lookup f = some r →
      fx.getRate f (some t) = ⟨r, false⟩) ∧
    (f ≠ t → (t = fx.target → fx.dbRates.lookup f = none) →
      ∀ r, FALLBACK_RATES.lookup (f, t) = some r →
      fx.getRate f (some t) = ⟨r, false⟩) ∧
    (f ≠ t → (t = fx.target → fx.dbRates.lookup f = none) →
      FALLBACK_RATES.lookup (f, t) = none →
      fx.getRate f (some t) = ⟨1, true⟩) := by
  have hres : fx.resolveTo (some t) = t := by simp [FxService.resolveTo, ht]
  refine ⟨?_, ?_, ?_, ?_⟩
  · intro hft
    simp [FxService.getRate, hres, hft]
  · intro hft htgt r hr
    simp [FxService.getRate, hres, hft, ← htgt, hr]
  · intro hft hdb r hr
    by_cases htgt : t = fx.target
    · simp [FxService.getRate, hres, hft, ← htgt, hdb htgt, hr]
    · simp [FxService.getRate, hres, hft, htgt, hr]
  · intro hft hdb hfb
    by_cases htgt : t = fx.target
    · simp [FxService.getRate, hres, hft, ← htgt, hdb htgt, hfb]
    · simp [FxService.getRate, hres, hft, htgt, hfb]

/-- Witness for C1: an unresolvable pair degrades to rate 1.0 with the
warning flag set. -/
theorem C1_get_rate_chain_witness :
    ("CNY" : String) ≠ "" ∧
    FxService.getRate ⟨"CNY", []⟩ "XYZ" (some "CNY") = ⟨1, true⟩ :=
  ⟨by decide,
    (C1_get_rate_chain ⟨"CNY", []⟩ "XYZ" "CNY" (by decide)).2.2.2
      (by decide) (fun _ => rfl) (by decide)⟩

/-- C9: convert maps a missing (None) amount to 0.0 and otherwise
multiplies the amount by the resolved rate. -/
theorem C9_convert (fx : FxService) (f : String) (t : Option String) (a : ℚ) :
    fx.convert none f t = 0 ∧
    fx.convert (some a) f t = a * (fx.getRate f t).rate :=
  ⟨rfl, rfl⟩

/-- C10: constructing the analysis service fails with ValueError exactly
when the value column `value_{base.lower()}` is absent from the input
DataFrame; on success the stored DataFrame equals the input (a copy).  All
analysis methods of the embedding are pure functions of the service, so
the stored DataFrame is never mutated. -/
theorem C10_analysis_init (pdf : PortfolioDf) (base : String) :
    (valColName base ∈ pdf.cols →
      mkAnalysisService pdf base = Except.ok ⟨pdf.cols, pdf.rows, base⟩) ∧
    (valColName base ∉ pdf.cols →
      mkAnalysisService pdf base =
        Except.error ("portfolio_df missing column " ++ valColName base)) ∧
    (∀ s, mkAnalysisService pdf base = Except.ok s →
      s.dfRows = pdf.rows ∧ s.dfCols = pdf.cols) := by
  refine ⟨?_, ?_, ?_⟩
  · intro h
    simp [mkAnalysisService, h]
  · intro h
    simp [mkAnalysisService, h]
  · intro s hs
    by_cases h : valColName base ∈ pdf.cols
    · simp only [mkAnalysisService, if_pos h, Except.ok.injEq] at hs
      subst hs
      exact ⟨rfl, rfl⟩
    · simp [mkAnalysisService, h] at hs

/-- Witness for C10: the value column for base currency CNY is present in
the schema produced by the portfolio service, so construction succeeds and
keeps the rows. -/
theorem C10_analysis_init_witness :
    valColName "CNY" ∈ (schemaColumns "CNY") ∧
    mkAnalysisService ⟨schemaColumns "CNY", []⟩ "CNY" =
      Except.ok ⟨schemaColumns "CNY", [], "CNY"⟩ :=
  ⟨by simp [valColName, schemaColumns],
    (C10_analysis_init ⟨schemaColumns "CNY", []⟩ "CNY").1
      (by simp [valColName, schemaColumns])⟩

/-- C5: a security line item takes the market price (source 'market') when
the ticker is in the latest-price map, else the average cost (source
'cost'), a NULL average cost degrading to value 0 rather than failing;
value_local is always qty * unit price; and the summary's price_warn_count
is the number of line items with price_source = 'cost'. -/
theorem C5_price_fallback (fx : FxService) (prices : List (String × ℚ)) (pos : Position) :
    (∀ p, prices.lookup pos.ticker = some p →
      (secLine fx prices pos).latestPrice = p ∧
      (secLine fx prices pos).priceSource = "market") ∧
    (prices.lookup pos.ticker = none →
      (secLine fx prices pos).priceSource = "cost" ∧
      (secLine fx prices pos).latestPrice = pos.avgCost.getD 0 ∧
      (pos.avgCost = none →
        (secLine fx prices pos).valueLocal = 0 ∧
        (secLine fx prices pos).valueBase = 0)) ∧
    ((secLine fx prices pos).valueLocal =
      (secLine fx prices pos).qty * (secLine fx prices pos).latestPrice) ∧
    (∀ s : AnalysisService,
      (getSummary s).priceWarnCount =
        (s.dfRows.filter (fun r => r.priceSource == "cost")).length) := by
  refine ⟨?_, ?_, ?_, ?_⟩
  · intro p hp
    simp [secLine, hp]
  · intro hp
    refine ⟨by simp [secLine, hp], by simp [secLine, hp], ?_⟩
    intro hnone
    simp [secLine, hp, hnone, FxService.convert]
  · simp [secLine]
  · intro s
    rfl

/-- Witness for C5: ticker ABC priced at 12 in the market map is valued at
the market price. -/
theorem C5_price_fallback_witness :
    List.lookup "ABC" [("ABC", (12 : ℚ))] = some 12 ∧
    (secLine ⟨"CNY", []⟩ [("ABC", 12)]
        ⟨1, "ABC", "ABC Inc", "EQUITY", none, "USD", 100, some 10⟩).latestPrice = 12 ∧
    (secLine ⟨"CNY", []⟩ [("ABC", 12)]
        ⟨1, "ABC", "ABC Inc", "EQUITY", none, "USD", 100, some 10⟩).priceSource = "market" :=
  ⟨rfl,
    (C5_price_fallback ⟨"CNY", []⟩ [("ABC", 12)]
      ⟨1, "ABC", "ABC Inc", "EQUITY", none, "USD", 100, some 10⟩).1 12 rfl⟩

/-- C6: the cash builder emits a CASH line item exactly for the balances
that are strictly positive, and each such line item carries qty = balance,
unit cost and unit price 1.0, price source 'N/A', local value = balance
and reporting value = the converted balance. -/
theorem C6_cash_lines (fx : FxService) (cbs : List CashBalance) :
    (∀ li ∈ buildCashRows fx cbs, ∃ cb ∈ cbs, 0 < cb.balance ∧ li = cashLine fx cb) ∧
    (∀ cb ∈ cbs, 0 < cb.balance → cashLine fx cb ∈ buildCashRows fx cbs) ∧
    (∀ cb : CashBalance,
      (cashLine fx cb).qty = cb.balance ∧
      (cashLine fx cb).avgCost = 1 ∧
      (cashLine fx cb).latestPrice = 1 ∧
      (cashLine fx cb).priceSource = "N/A" ∧
      (cashLine fx cb).valueLocal = cb.balance ∧
      (cashLine fx cb).valueBase = fx.convert (some cb.balance) cb.currency none) := by
  refine ⟨?_, ?_, ?_⟩
  · intro li hli
    simp only [buildCashRows] at hli
    rcases List.mem_map.mp hli with ⟨cb, hcb, rfl⟩
    rcases List.mem_filter.mp hcb with ⟨hmem, hpos⟩
    exact ⟨cb, hmem, by simpa using hpos, rfl⟩
  · intro cb hcb hpos
    simp only [buildCashRows]
    exact List.mem_map_of_mem _ (List.mem_filter.mpr ⟨hcb, by simpa using hpos⟩)
  · intro cb
    exact ⟨rfl, rfl, rfl, rfl, rfl, rfl⟩

/-- Witness for C6: a positive 4950 CNY balance yields its CASH line item. -/
theorem C6_cash_lines_witness :
    (0 : ℚ) < 4950 ∧
    cashLine ⟨"CNY", []⟩ ⟨1, "A", "CNY", 4950⟩ ∈
      buildCashRows ⟨"CNY", []⟩ [⟨1, "A", "CNY", 4950⟩] :=
  ⟨by norm_num,
    (C6_cash_lines ⟨"CNY", []⟩ [⟨1, "A", "CNY", 4950⟩]).2.1
      ⟨1, "A", "CNY", 4950⟩ (List.mem_singleton.mpr rfl) (by norm_num)⟩

/-- Membership characterization of get_positions: exactly the per-asset
aggregated rows whose total quantity clears the 0.0001 threshold. -/
theorem mem_getPositions_iff {assets : List Asset} {ledger : List Transaction}
    {asOf : Option Nat} {p : Position} :
    p ∈ getPositions assets ledger asOf ↔
      (∃ a ∈ assets, p = positionOfAsset ledger asOf a) ∧
        (1 : ℚ)/10000 < p.totalQty := by
  unfold getPositions
  rw [List.mem_mergeSort, List.mem_filter]
  simp only [List.mem_map, decide_eq_true_eq]
  constructor
  · rintro ⟨⟨a, ha, rfl⟩, h⟩
    exact ⟨⟨a, ha, rfl⟩, h⟩
  · rintro ⟨⟨a, ha, rfl⟩, h⟩
    exact ⟨⟨a, ha, rfl⟩, h⟩

/-- C2: every emitted position's total_qty is the sum of the signed
quantities of its asset's BUY/SELL transactions with non-null qty up to the
as-of date; no emitted position has total_qty <= 0.0001; and an asset is
emitted exactly when that sum exceeds 0.0001. -/
theorem C2_positions_total_qty (assets : List Asset) (ledger : List Transaction)
    (asOf : Option Nat) :
    (∀ p ∈ getPositions assets ledger asOf,
      p.totalQty = positionTotalQty ledger asOf p.assetId ∧
      ¬ p.totalQty ≤ (1 : ℚ)/10000) ∧
    (∀ a ∈ assets,
      ((1 : ℚ)/10000 < positionTotalQty ledger asOf a.id ↔
        ∃ p ∈ getPositions assets ledger asOf, p.assetId = a.id)) := by
  constructor
  · intro p hp
    rcases mem_getPositions_iff.mp hp with ⟨⟨a, _, rfl⟩, h⟩
    exact ⟨rfl, not_le.mpr h⟩
  · intro a ha
    constructor
    · intro h
      exact ⟨positionOfAsset ledger asOf a,
        mem_getPositions_iff.mpr ⟨⟨a, ha, rfl⟩, h⟩, rfl⟩
    · rintro ⟨p, hp, hid⟩
      rcases mem_getPositions_iff.mp hp with ⟨⟨a', _, rfl⟩, h⟩
      have hid' : a'.id = a.id := hid
      rw [← hid']
      exact h

/-- An asset and a two-BUY ledger used as concrete witness data. -/
def assetABC : Asset := ⟨1, "ABC", "ABC Inc", "EQUITY", none, "USD"⟩

/-- Two BUY transactions: qty 10 at price 100 and qty 10 at price 200. -/
def ledgerTwoBuys : List Transaction :=
  [⟨1, TxType.BUY, some 1, some 1, some 10, some 100, -1000, "USD"⟩,
   ⟨2, TxType.BUY, some 1, some 1, some 10, some 200, -2000, "USD"⟩]

/-- Witness for C2: two BUYs of qty 10 give a summed quantity 20 above the
threshold, so the asset appears among the positions. -/
theorem C2_positions_total_qty_witness :
    (1 : ℚ)/10000 < positionTotalQty ledgerTwoBuys none 1 ∧
    ∃ p ∈ getPositions [assetABC] ledgerTwoBuys none, p.assetId = 1 := by
  have h : (1 : ℚ)/10000 < positionTotalQty ledgerTwoBuys none 1 := by
    norm_num [positionTotalQty, posRowFilter, dateLe, txQty, ledgerTwoBuys]
  exact ⟨h,
    ((C2_positions_total_qty [assetABC] ledgerTwoBuys none).2 assetABC
      (List.mem_singleton.mpr rfl)).mp h⟩

/-- Lists of non-NULL SQL values are unchanged by NULL-skipping. -/
theorem filterMap_id_all_some {l : List (Option ℚ)} (h : ∀ x ∈ l, x ≠ none) :
    l.filterMap id = l.map (fun x => x.getD 0) := by
  induction l with
  | nil => rfl
  | cons a l ih =>
    cases a with
    | none => exact absurd rfl (h none (List.mem_cons_self _ _))
    | some v =>
      simp only [List.filterMap_cons, List.map_cons, Option.getD_some, id]
      exact congrArg _ (ih fun x hx => h x (List.mem_cons_of_mem _ hx))

/-- SQL SUM of a non-empty column without NULLs is the plain sum. -/
theorem sqlSum_all_some {l : List (Option ℚ)} (hne : l ≠ [])
    (h : ∀ x ∈ l, x ≠ none) :
    sqlSum l = some ((l.map (fun x => x.getD 0)).sum) := by
  unfold sqlSum
  rw [filterMap_id_all_some h]
  cases l with
  | nil => exact absurd rfl hne
  | cons a l => rfl

/-- Pulling a CASE WHEN filter out of a SQL SUM. -/
theorem sum_map_ite_filter {α : Type} (l : List α) (f : α → ℚ) (p : α → Prop)
    [DecidablePred p] :
    (l.map (fun t => if p t then f t else 0)).sum =
      ((l.filter (fun t => decide (p t))).map f).sum := by
  induction l with
  | nil => rfl
  | cons t l ih =>
    by_cases hp : p t
    · simp [hp, ih]
    · simp [hp, ih]

/-- avg_cost is NULL when the positive-quantity denominator vanishes
(NULLIF(..., 0) propagation). -/
theorem positionAvgCost_den_zero {ledger : List Transaction} {asOf : Option Nat}
    {aid : Nat}
    (hden : ((ledger.filter (posRowFilter asOf aid)).map avgCostDenTerm).sum = 0) :
    positionAvgCost ledger asOf aid = none := by
  simp only [positionAvgCost]
  rw [if_pos hden]
  cases sqlSum ((ledger.filter (posRowFilter asOf aid)).map avgCostNumTerm) <;> rfl

/-- The NULL-skipped numerator term agrees with qty * price (a NULL price
with positive qty is excluded by hypothesis where it matters; with the 0
default both sides vanish otherwise). -/
theorem avgCostNumTerm_getD (t : Transaction) :
    (avgCostNumTerm t).getD 0 =
      if 0 < txQty t then txQty t * t.price.getD 0 else 0 := by
  unfold avgCostNumTerm
  by_cases hq : 0 < txQty t
  · rw [if_pos hq, if_pos hq]
    cases t.price <;> simp
  · rw [if_neg hq, if_neg hq]
    rfl

/-- avg_cost equals sum(qty * price over qty > 0 rows) divided by
sum(qty over qty > 0 rows) when the denominator is non-zero and every
positive-qty row has a non-NULL price. -/
theorem positionAvgCost_eq (ledger : List Transaction) (asOf : Option Nat) (aid : Nat)
    (hprice : ∀ t ∈ ledger.filter (posRowFilter asOf aid), 0 < txQty t → t.price ≠ none)
    (hden : ((ledger.filter (posRowFilter asOf aid)).map avgCostDenTerm).sum ≠ 0) :
    positionAvgCost ledger asOf aid =
      some ((((ledger.filter (posRowFilter asOf aid)).filter
            (fun t => decide (0 < txQty t))).map
              (fun t => txQty t * t.price.getD 0)).sum /
          (((ledger.filter (posRowFilter asOf aid)).filter
            (fun t => decide (0 < txQty t))).map txQty).sum) := by
  have hne : ledger.filter (posRowFilter asOf aid) ≠ [] := by
    intro h0
    exact hden (by rw [h0]; rfl)
  have hterms : ∀ x ∈ (ledger.filter (posRowFilter asOf aid)).map avgCostNumTerm,
      x ≠ none := by
    intro x hx
    rcases List.mem_map.mp hx with ⟨t, ht, rfl⟩
    unfold avgCostNumTerm
    by_cases hq : 0 < txQty t
    · rw [if_pos hq]
      cases hp : t.price with
      | none => exact absurd hp (hprice t ht hq)
      | some p => simp
    · rw [if_neg hq]
      simp
  have hmapne : (ledger.filter (posRowFilter asOf aid)).map avgCostNumTerm ≠ [] := by
    intro h
    exact hne (List.map_eq_nil_iff.mp h)
  simp only [positionAvgCost]
  rw [sqlSum_all_some hmapne hterms, if_neg hden]
  refine congrArg some ?_
  congr 1
  · rw [List.map_map]
    have hfun : ((fun x : Option ℚ => x.getD 0) ∘ avgCostNumTerm) =
        (fun t => if 0 < txQty t then txQty t * t.price.getD 0 else 0) :=
      funext fun t => avgCostNumTerm_getD t
    rw [hfun, sum_map_ite_filter]
  · have hfun : avgCostDenTerm = (fun t => if 0 < txQty t then txQty t else 0) :=
      funext fun t => rfl
    rw [hfun, sum_map_ite_filter]

/-- C3: for every emitted position, a zero positive-quantity denominator
yields a null avg_cost instead of a division failure; otherwise (with
prices present on the positive-qty rows, as in any ledger where qty*price
is defined) avg_cost is exactly sum(qty*price over qty>0 rows) /
sum(qty over qty>0 rows); and every asset above the quantity threshold is
emitted with that avg_cost — in particular two BUYs of 10@100 and 10@200
give exactly 150 (see the witness). -/
theorem C3_avg_cost (assets : List Asset) (ledger : List Transaction)
    (asOf : Option Nat) :
    (∀ p ∈ getPositions assets ledger asOf,
      ((ledger.filter (posRowFilter asOf p.assetId)).map avgCostDenTerm).sum = 0 →
        p.avgCost = none) ∧
    (∀ p ∈ getPositions assets ledger asOf,
      (∀ t ∈ ledger.filter (posRowFilter asOf p.assetId), 0 < txQty t → t.price ≠ none) →
      ((ledger.filter (posRowFilter asOf p.assetId)).map avgCostDenTerm).sum ≠ 0 →
      p.avgCost =
        some ((((ledger.filter (posRowFilter asOf p.assetId)).filter
              (fun t => decide (0 < txQty t))).map
                (fun t => txQty t * t.price.getD 0)).sum /
            (((ledger.filter (posRowFilter asOf p.assetId)).filter
              (fun t => decide (0 < txQty t))).map txQty).sum)) ∧
    (∀ a ∈ assets, (1 : ℚ)/10000 < positionTotalQty ledger asOf a.id →
      ∃ p ∈ getPositions assets ledger asOf, p.assetId = a.id ∧
        p.avgCost = positionAvgCost ledger asOf a.id) := by
  refine ⟨?_, ?_, ?_⟩
  · intro p hp hden
    rcases mem_getPositions_iff.mp hp with ⟨⟨a, _, rfl⟩, _⟩
    exact positionAvgCost_den_zero hden
  · intro p hp hprice hden
    rcases mem_getPositions_iff.mp hp with ⟨⟨a, _, rfl⟩, _⟩
    exact positionAvgCost_eq ledger asOf _ hprice hden
  · intro a ha h
    exact ⟨positionOfAsset ledger asOf a,
      mem_getPositions_iff.mpr ⟨⟨a, ha, rfl⟩, h⟩, rfl, rfl⟩

/-- Witness for C3: two BUYs of qty 10 at prices 100 and 200 give
avg_cost exactly 150. -/
theorem C3_avg_cost_witness :
    (1 : ℚ)/10000 < positionTotalQty ledgerTwoBuys none 1 ∧
    ∃ p ∈ getPositions [assetABC] ledgerTwoBuys none,
      p.assetId = 1 ∧ p.avgCost = some 150 := by
  have h : (1 : ℚ)/10000 < positionTotalQty ledgerTwoBuys none 1 := by
    norm_num [positionTotalQty, posRowFilter, dateLe, txQty, ledgerTwoBuys]
  have hcomp : positionAvgCost ledgerTwoBuys none 1 = some 150 := by
    norm_num [positionAvgCost, sqlSum, avgCostNumTerm, avgCostDenTerm,
      posRowFilter, dateLe, txQty, ledgerTwoBuys, List.filter_cons,
      List.filter_nil, List.map_cons, List.map_nil, List.filterMap_cons,
      List.filterMap_nil, id]
  rcases ((C3_avg_cost [assetABC] ledgerTwoBuys none).2.2 assetABC
      (List.mem_singleton.mpr rfl) h) with ⟨p, hp, hid, havg⟩
  exact ⟨h, p, hp, hid, havg.trans hcomp⟩

/-- Membership characterization of get_cash_balances: exactly the
(account, currency) groups present in the date-filtered join whose summed
cash flow clears the 0.01 noise threshold. -/
theorem mem_getCashBalances_iff {accounts : List Account} {ledger : List Transaction}
    {asOf : Option Nat} {cb : CashBalance} :
    cb ∈ getCashBalances accounts ledger asOf ↔
      ∃ acc ∈ accounts, ∃ c ∈ accountCurrencies ledger asOf acc.id,
        (1 : ℚ)/100 < |cashBalanceSum ledger asOf acc.id c| ∧
        cb = ⟨acc.id, acc.name, c, cashBalanceSum ledger asOf acc.id c⟩ := by
  unfold getCashBalances
  rw [List.mem_mergeSort, List.mem_flatMap]
  constructor
  · rintro ⟨acc, hacc, hmem⟩
    rcases List.mem_filterMap.mp hmem with ⟨c, hc, hsome⟩
    by_cases hcond : (1 : ℚ)/100 < |cashBalanceSum ledger asOf acc.id c|
    · rw [if_pos hcond] at hsome
      exact ⟨acc, hacc, c, hc, hcond, (Option.some.injEq _ _ ▸ hsome).symm⟩
    · rw [if_neg hcond] at hsome
      exact absurd hsome (by simp)
  · rintro ⟨acc, hacc, c, hc, hcond, rfl⟩
    exact ⟨acc, hacc, List.mem_filterMap.mpr ⟨c, hc, by rw [if_pos hcond]⟩⟩

/-- The (account name, currency) lexicographic comparison is total. -/
theorem cbLe_total (x y : CashBalance) : (cbLe x y || cbLe y x) = true := by
  simp only [cbLe, Bool.or_eq_true, decide_eq_true_eq, Bool.and_eq_true, beq_iff_eq]
  rcases lt_trichotomy x.accountName y.accountName with h | h | h
  · exact Or.inl (Or.inl h)
  · rcases le_total x.currency y.currency with hc | hc
    · exact Or.inl (Or.inr ⟨h, hc⟩)
    · exact Or.inr (Or.inr ⟨h.symm, hc⟩)
  · exact Or.inr (Or.inl h)

/-- The (account name, currency) lexicographic comparison is transitive. -/
theorem cbLe_trans (x y z : CashBalance) :
    cbLe x y = true → cbLe y z = true → cbLe x z = true := by
  simp only [cbLe, Bool.or_eq_true, decide_eq_true_eq, Bool.and_eq_true, beq_iff_eq]
  rintro (h | ⟨he, hc⟩) (h' | ⟨he', hc'⟩)
  · exact Or.inl (lt_trans h h')
  · exact Or.inl (he' ▸ h)
  · exact Or.inl (he ▸ h')
  · exact Or.inr ⟨he.trans he', le_trans hc hc'⟩

/-- get_cash_balances output is ordered by account name, then currency. -/
theorem getCashBalances_sorted (accounts : List Account) (ledger : List Transaction)
    (asOf : Option Nat) :
    List.Pairwise (fun x y => cbLe x y = true) (getCashBalances accounts ledger asOf) := by
  unfold getCashBalances
  exact List.sorted_mergeSort cbLe_trans cbLe_total _

/-- C4: every emitted cash balance is the sum of cash_flow over all
transaction types of its (account, currency) group up to the as-of date
and clears the 0.01 threshold; a group is emitted exactly when its summed
balance does clear the threshold; and the output is ordered by account
name, then currency. -/
theorem C4_cash_balance_sums (accounts : List Account) (ledger : List Transaction)
    (asOf : Option Nat) :
    (∀ cb ∈ getCashBalances accounts ledger asOf,
      cb.balance = cashBalanceSum ledger asOf cb.accountId cb.currency ∧
      (1 : ℚ)/100 < |cb.balance|) ∧
    (∀ acc ∈ accounts, ∀ c : String,
      ((1 : ℚ)/100 < |cashBalanceSum ledger asOf acc.id c| ↔
        ∃ cb ∈ getCashBalances accounts ledger asOf,
          cb.accountId = acc.id ∧ cb.currency = c ∧
          cb.balance = cashBalanceSum ledger asOf acc.id c)) ∧
    List.Pairwise (fun x y => cbLe x y = true) (getCashBalances accounts ledger asOf) := by
  refine ⟨?_, ?_, getCashBalances_sorted accounts ledger asOf⟩
  · intro cb hcb
    rcases mem_getCashBalances_iff.mp hcb with ⟨acc, _, c, _, hcond, rfl⟩
    exact ⟨rfl, hcond⟩
  · intro acc hacc c
    constructor
    · intro h
      have hne : ledger.filter (cashRowFilter asOf acc.id c) ≠ [] := by
        intro h0
        rw [cashBalanceSum, h0] at h
        norm_num at h
      obtain ⟨t, ht⟩ := List.exists_mem_of_ne_nil _ hne
      have htmem := List.mem_filter.mp ht
      have hflt := htmem.2
      simp only [cashRowFilter, Bool.and_eq_true, beq_iff_eq] at hflt
      have hc : c ∈ accountCurrencies ledger asOf acc.id := by
        unfold accountCurrencies
        rw [List.mem_dedup]
        refine List.mem_map.mpr ⟨t, List.mem_filter.mpr ⟨htmem.1, ?_⟩, hflt.2⟩
        simp only [Bool.and_eq_true, beq_iff_eq]
        exact hflt.1
      exact ⟨⟨acc.id, acc.name, c, cashBalanceSum ledger asOf acc.id c⟩,
        mem_getCashBalances_iff.mpr ⟨acc, hacc, c, hc, h, rfl⟩, rfl, rfl, rfl⟩
    · rintro ⟨cb, hcb, hid, hcur, _⟩
      rcases mem_getCashBalances_iff.mp hcb with ⟨acc', _, c', _, hcond, rfl⟩
      have hid' : acc'.id = acc.id := hid
      have hcur' : c' = c := hcur
      rw [← hid', ← hcur']
      exact hcond

/-- An account used as concrete witness data. -/
def accountA : Account := ⟨1, "A"⟩

/-- One DEPOSIT of +5000 CNY and one FEE of -50 CNY in the same account. -/
def ledgerDepFee : List Transaction :=
  [⟨1, TxType.DEPOSIT, some 1, none, none, none, 5000, "CNY"⟩,
   ⟨2, TxType.FEE, some 1, none, none, none, -50, "CNY"⟩]

/-- Witness for C4: the DEPOSIT/FEE scenario yields a balance of exactly
4950 for (account A, CNY). -/
theorem C4_cash_balance_sums_witness :
    (1 : ℚ)/100 < |cashBalanceSum ledgerDepFee none 1 "CNY"| ∧
    ∃ cb ∈ getCashBalances [accountA] ledgerDepFee none,
      cb.accountId = 1 ∧ cb.currency = "CNY" ∧ cb.balance = 4950 := by
  have hsum : cashBalanceSum ledgerDepFee none 1 "CNY" = 4950 := by
    norm_num [cashBalanceSum, cashRowFilter, dateLe, ledgerDepFee,
      List.filter_cons, List.filter_nil, List.map_cons, List.map_nil]
  have h : (1 : ℚ)/100 < |cashBalanceSum ledgerDepFee none 1 "CNY"| := by
    rw [hsum]
    norm_num
  rcases ((C4_cash_balance_sums [accountA] ledgerDepFee none).2.1 accountA
      (List.mem_singleton.mpr rfl) "CNY").mp h with ⟨cb, hcb, hid, hcur, hbal⟩
  exact ⟨h, cb, hcb, hid, hcur, hbal.trans hsum⟩

/-- C8: an empty ledger produces no positions, no cash balances, an empty
snapshot, empty asset-class, currency and account distributions, and a
summary total of 0.0 — every one of these is an ordinary value, not an
exception. -/
theorem C8_empty_portfolio (assets : List Asset) (accounts : List Account)
    (fx : FxService) (prices : List (String × ℚ)) (asOf : Option Nat) (base : String) :
    getPositions assets [] asOf = [] ∧
    getCashBalances accounts [] asOf = [] ∧
    getFullPortfolio fx [] [] prices = [] ∧
    getAssetClassDistribution ⟨schemaColumns base, [], base⟩ = [] ∧
    getCurrencyDistribution ⟨schemaColumns base, [], base⟩ = [] ∧
    getAccountDistribution ⟨schemaColumns base, [], base⟩ = [] ∧
    (getSummary ⟨schemaColumns base, [], base⟩).totalValue = 0 := by
  refine ⟨?_, ?_, ?_, ?_, ?_, ?_, ?_⟩
  · have hfil : (assets.map (positionOfAsset [] asOf)).filter
        (fun p => decide ((1 : ℚ)/10000 < p.totalQty)) = [] := by
      rw [List.filter_eq_nil_iff]
      intro p hp
      rcases List.mem_map.mp hp with ⟨a, _, rfl⟩
      have hq : positionTotalQty [] asOf a.id = 0 := rfl
      simp only [positionOfAsset, decide_eq_true_eq, hq]
      norm_num
    unfold getPositions
    rw [hfil, List.mergeSort_nil]
  · have hfl : accounts.flatMap (fun acc =>
        (accountCurrencies [] asOf acc.id).filterMap (fun c =>
          if (1 : ℚ)/100 < |cashBalanceSum [] asOf acc.id c| then
            some (⟨acc.id, acc.name, c, cashBalanceSum [] asOf acc.id c⟩ : CashBalance)
          else none)) = [] :=
      List.flatMap_eq_nil_iff.mpr (fun acc _ => rfl)
    unfold getCashBalances
    rw [hfl, List.mergeSort_nil]
  · have happ : buildSecurityRows fx prices [] ++ buildCashRows fx [] =
        ([] : List LineItem) := rfl
    unfold getFullPortfolio
    rw [happ, List.mergeSort_nil]
  · have h0 : totalValue ⟨schemaColumns base, [], base⟩ = 0 := rfl
    unfold getAssetClassDistribution distribution
    rw [if_pos h0]
  · have h0 : totalValue ⟨schemaColumns base, [], base⟩ = 0 := rfl
    unfold getCurrencyDistribution distribution
    rw [if_pos h0]
  · have h0 : totalValue ⟨schemaColumns base, [], base⟩ = 0 := rfl
    unfold getAccountDistribution
    rw [if_pos h0]
  · have h0 : totalValue ⟨schemaColumns base, [], base⟩ = 0 := rfl
    show round2 (totalValue ⟨schemaColumns base, [], base⟩) = 0
    rw [h0]
    norm_num [round2]

/-- Sums over two disjoint Boolean filters combine into the sum over the
disjunction filter. -/
theorem sum_filter_disjoint {α : Type} (v : α → ℚ) (p q : α → Bool) (l : List α)
    (h : ∀ x, ¬(p x = true ∧ q x = true)) :
    ((l.filter p).map v).sum + ((l.filter q).map v).sum =
      ((l.filter (fun x => p x || q x)).map v).sum := by
  induction l with
  | nil => simp
  | cons a l ih =>
    cases hp : p a with
    | true =>
      cases hq : q a with
      | true => exact absurd ⟨hp, hq⟩ (h a)
      | false =>
        simp only [List.filter_cons, hp, hq, if_pos, if_neg, Bool.or_self,
          Bool.true_or, List.map_cons, List.sum_cons, ite_true, ite_false,
          Bool.false_eq_true]
        linear_combination ih
    | false =>
      cases hq : q a with
      | true =>
        simp only [List.filter_cons, hp, hq, Bool.false_or, List.map_cons,
          List.sum_cons, ite_true, ite_false, Bool.false_eq_true]
        linear_combination ih
      | false =>
        simp only [List.filter_cons, hp, hq, Bool.or_self, ite_false,
          Bool.false_eq_true]
        linear_combination ih

/-- Summing the per-group sums over a duplicate-free key list equals the
sum over the rows whose key lies in that list. -/
theorem sum_fibers (key : LineItem → String) (v : LineItem → ℚ) (l : List LineItem) :
    ∀ ks : List String, ks.Nodup →
      (ks.map (fun k => ((l.filter (fun x => key x == k)).map v).sum)).sum =
        ((l.filter (fun x => decide (key x ∈ ks))).map v).sum := by
  intro ks
  induction ks with
  | nil => intro _; simp
  | cons k ks ih =>
    intro hnd
    have hk : k ∉ ks := (List.nodup_cons.mp hnd).1
    rw [List.map_cons, List.sum_cons, ih (List.Nodup.of_cons hnd),
      sum_filter_disjoint v _ _ l
        (fun x hx => hk (by
          rcases hx with ⟨h1, h2⟩
          rw [← beq_iff_eq.mp h1]
          exact of_decide_eq_true h2))]
    refine congrArg _ (congrArg _ (List.filter_congr (fun x _ => ?_)))
    rw [Bool.eq_iff_iff]
    simp [List.mem_cons]

/-- The sums of all fibers over the deduplicated key list add up to the sum
over the whole row list. -/
theorem sum_fibers_dedup (key : LineItem → String) (v : LineItem → ℚ)
    (l : List LineItem) :
    (((l.map key).dedup).map
      (fun k => ((l.filter (fun x => key x == k)).map v).sum)).sum =
      (l.map v).sum := by
  rw [sum_fibers key v l _ (List.nodup_dedup _)]
  have hself : l.filter (fun x => decide (key x ∈ (l.map key).dedup)) = l :=
    List.filter_eq_self.mpr (fun x hx => by
      simp only [decide_eq_true_eq, List.mem_dedup]
      exact List.mem_map_of_mem key hx)
  rw [hself]

/-- Rounding to two decimals moves a rational by at most 1/200. -/
theorem abs_round2_sub (x : ℚ) : |round2 x - x| ≤ 1/200 := by
  unfold round2
  have h := abs_sub_round (100 * x)
  rw [abs_sub_comm] at h
  have habs : |((round (100 * x) : ℤ) : ℚ)/100 - x| =
      |((round (100 * x) : ℤ) : ℚ) - 100 * x| / 100 := by
    rw [show ((round (100 * x) : ℤ) : ℚ)/100 - x =
        (((round (100 * x) : ℤ) : ℚ) - 100 * x)/100 by ring, abs_div]
    norm_num
  rw [habs]
  linarith

/-- Summing two-decimal roundings moves a sum by at most 1/200 per term. -/
theorem sum_round2_err (ws : List ℚ) :
    |(ws.map round2).sum - ws.sum| ≤ (ws.length : ℚ) / 200 := by
  induction ws with
  | nil => simp
  | cons w ws ih =>
    simp only [List.map_cons, List.sum_cons, List.length_cons]
    have h1 := abs_round2_sub w
    have hsplit : round2 w + (ws.map round2).sum - (w + ws.sum) =
        (round2 w - w) + ((ws.map round2).sum - ws.sum) := by ring
    rw [hsplit]
    have htri := abs_add (round2 w - w) ((ws.map round2).sum - ws.sum)
    push_cast
    linarith

/-- For every distribution built by the analyzer with a non-zero total, the
rounded weights sum to 100 up to 1/200 per group. -/
theorem distribution_weight_sum (labels : List (String × String))
    (key : LineItem → String) (s : AnalysisService) (h : totalValue s ≠ 0) :
    |((distribution labels key s).map (·.weightPct)).sum - 100| ≤
      ((distribution labels key s).length : ℚ) / 200 := by
  unfold distribution
  rw [if_neg h]
  have hperm := List.mergeSort_perm
    ((groupKeys key s.dfRows).map (distRow labels key s)) distGe
  rw [(hperm.map (·.weightPct)).sum_eq, hperm.length_eq]
  rw [List.map_map, List.length_map]
  have hfuneq : ((fun r : DistRow => r.weightPct) ∘ distRow labels key s) =
      round2 ∘ (fun k =>
        ((groupRows key s.dfRows k).map (·.valueBase)).sum / totalValue s * 100) := rfl
  rw [hfuneq, ← List.map_map]
  have hsum100 : ((groupKeys key s.dfRows).map
      (fun k => ((groupRows key s.dfRows k).map (·.valueBase)).sum / totalValue s * 100)).sum
      = 100 := by
    have hfun : (fun k =>
        ((groupRows key s.dfRows k).map (·.valueBase)).sum / totalValue s * 100) =
        (fun k => (((s.dfRows.filter (fun x => key x == k)).map (·.valueBase)).sum) *
          (100 / totalValue s)) :=
      funext fun k => by
        unfold groupRows
        ring
    rw [hfun, List.sum_map_mul_right]
    unfold groupKeys
    rw [sum_fibers_dedup key (·.valueBase) s.dfRows]
    show totalValue s * (100 / totalValue s) = 100
    field_simp
  have herr := sum_round2_err ((groupKeys key s.dfRows).map
    (fun k => ((groupRows key s.dfRows k).map (·.valueBase)).sum / totalValue s * 100))
  rw [List.length_map, hsum100] at herr
  exact herr

/-- A two-row snapshot (one SECURITY and one CASH line item, each worth 100
in the reporting currency) used as concrete distribution data. -/
def svcTwoRows : AnalysisService :=
  ⟨schemaColumns "CNY",
   [⟨"SECURITY", "ABC", "ABC Inc", "EQUITY", "", "USD", 10, 10, 10, "market", 100, 100⟩,
    ⟨"CASH", "A_CNY", "A 现金", "CASH", "CNY", "CNY", 100, 1, 1, "N/A", 100, 100⟩],
   "CNY"⟩

/-- Twelve one-row currency groups engineered so that every weight rounds
up by 0.005 under round-half-up: eleven values of 83.35 and one of 83.15
out of a total of 1000 give weights 11 x 8.335 and 8.315, which round to
11 x 8.34 and 8.32 (the same values under round-half-to-even, since 834
and 832 are even), summing to 100.06. -/
def svcTwelve : AnalysisService :=
  ⟨schemaColumns "CNY",
   [⟨"SECURITY", "T01", "S01", "EQUITY", "", "C01", 1, 1, 1, "market", 83.35, 83.35⟩,
    ⟨"SECURITY", "T02", "S02", "EQUITY", "", "C02", 1, 1, 1, "market", 83.35, 83.35⟩,
    ⟨"SECURITY", "T03", "S03", "EQUITY", "", "C03", 1, 1, 1, "market", 83.35, 83.35⟩,
    ⟨"SECURITY", "T04", "S04", "EQUITY", "", "C04", 1, 1, 1, "market", 83.35, 83.35⟩,
    ⟨"SECURITY", "T05", "S05", "EQUITY", "", "C05", 1, 1, 1, "market", 83.35, 83.35⟩,
    ⟨"SECURITY", "T06", "S06", "EQUITY", "", "C06", 1, 1, 1, "market", 83.35, 83.35⟩,
    ⟨"SECURITY", "T07", "S07", "EQUITY", "", "C07", 1, 1, 1, "market", 83.35, 83.35⟩,
    ⟨"SECURITY", "T08", "S08", "EQUITY", "", "C08", 1, 1, 1, "market", 83.35, 83.35⟩,
    ⟨"SECURITY", "T09", "S09", "EQUITY", "", "C09", 1, 1, 1, "market", 83.35, 83.35⟩,
    ⟨"SECURITY", "T10", "S10", "EQUITY", "", "C10", 1, 1, 1, "market", 83.35, 83.35⟩,
    ⟨"SECURITY", "T11", "S11", "EQUITY", "", "C11", 1, 1, 1, "market", 83.35, 83.35⟩,
    ⟨"SECURITY", "T12", "S12", "EQUITY", "", "C12", 1, 1, 1, "market", 83.15, 83.15⟩],
   "CNY"⟩

/-- In a row list whose keys are pairwise distinct, every group is the
singleton of its own row. -/
theorem groupRows_singleton (key : LineItem → String) :
    ∀ rows : List LineItem, (rows.map key).Nodup →
      ∀ r ∈ rows, groupRows key rows (key r) = [r] := by
  intro rows
  induction rows with
  | nil =>
    intro _ r hr
    exact absurd hr (List.not_mem_nil r)
  | cons a l ih =>
    intro hnd r hr
    have hna : key a ∉ l.map key := (List.nodup_cons.mp hnd).1
    rcases List.mem_cons.mp hr with rfl | hrl
    · show (r :: l).filter (fun x => key x == key r) = [r]
      rw [List.filter_cons, if_pos (beq_self_eq_true (key r))]
      rw [List.filter_eq_nil_iff.mpr ?_]
      intro x hx hbe
      exact hna (beq_iff_eq.mp hbe ▸ List.mem_map_of_mem key hx)
    · show (a :: l).filter (fun x => key x == key r) = [r]
      have hne : (key a == key r) = false := by
        rw [beq_eq_false_iff_ne]
        intro he
        exact hna (he ▸ List.mem_map_of_mem key hrl)
      rw [List.filter_cons, if_neg (by rw [hne]; exact Bool.false_ne_true)]
      exact ih (List.nodup_cons.mp hnd).2 r hrl

/-- Counterexample to C7, in two parts.  First, the by-account distribution
weights each CASH row against the total of the whole portfolio while
listing only CASH rows, so with one security worth 100 and one cash
balance worth 100 the by-account weights sum to 50, not 100 ± 0.05, even
though the total is positive.  Second, even for by_currency the flat 0.05
tolerance fails: on the twelve-currency snapshot the rounded weights sum
to exactly 100.06. -/
theorem C7_counterexample_weight_sums :
    (0 < totalValue svcTwoRows ∧
      ¬ |((getAccountDistribution svcTwoRows).map (·.weightPct)).sum - 100| ≤ (1 : ℚ)/20) ∧
    (0 < totalValue svcTwelve ∧
      ((getCurrencyDistribution svcTwelve).map (·.weightPct)).sum = 10006/100 ∧
      ¬ |((getCurrencyDistribution svcTwelve).map (·.weightPct)).sum - 100| ≤ (1 : ℚ)/20) := by
  have htot : totalValue svcTwoRows = 200 := by
    norm_num [svcTwoRows, totalValue]
  refine ⟨⟨?_, ?_⟩, ?_⟩
  · rw [htot]
    norm_num
  · have hdist : getAccountDistribution svcTwoRows =
        [⟨"A 现金", "CNY", 100, 100, 50⟩] := by
      rw [getAccountDistribution, if_neg (by rw [htot]; norm_num)]
      rw [htot]
      have hb1 : (("SECURITY" : String) == "CASH") = false := by decide
      have hb2 : (("CASH" : String) == "CASH") = true := by decide
      simp only [svcTwoRows, List.filter_cons, List.filter_nil, hb1, hb2,
        Bool.false_eq_true, if_false, if_true, List.map_cons, List.map_nil]
      norm_num [round2, round_eq]
    rw [hdist]
    norm_num
  · have htot12 : totalValue svcTwelve = 1000 := by
      norm_num [svcTwelve, totalValue]
    have hnd : (svcTwelve.dfRows.map (fun x => x.currency)).Nodup := by decide
    have hkeys : groupKeys (fun x => x.currency) svcTwelve.dfRows =
        svcTwelve.dfRows.map (fun x => x.currency) := by
      unfold groupKeys
      exact List.dedup_eq_self.mpr hnd
    have hpt : ∀ r ∈ svcTwelve.dfRows,
        (((fun d : DistRow => d.weightPct) ∘
          distRow CURRENCY_LABELS (fun x => x.currency) svcTwelve) ∘
            (fun x : LineItem => x.currency)) r =
          round2 (r.valueBase / 1000 * 100) := by
      intro r hr
      show round2
          ((((groupRows (fun x => x.currency) svcTwelve.dfRows r.currency).map
            (fun x => x.valueBase)).sum) / totalValue svcTwelve * 100) =
        round2 (r.valueBase / 1000 * 100)
      rw [groupRows_singleton (fun x => x.currency) svcTwelve.dfRows hnd r hr, htot12]
      simp
    have hperm := List.mergeSort_perm
      ((groupKeys (fun x => x.currency) svcTwelve.dfRows).map
        (distRow CURRENCY_LABELS (fun x => x.currency) svcTwelve)) distGe
    have hsum : ((getCurrencyDistribution svcTwelve).map (·.weightPct)).sum =
        10006/100 := by
      rw [getCurrencyDistribution, distribution, if_neg (by rw [htot12]; norm_num)]
      rw [(hperm.map (·.weightPct)).sum_eq, List.map_map, hkeys, List.map_map]
      rw [List.map_congr_left hpt]
      norm_num [svcTwelve, round2, round_eq]
    refine ⟨by rw [htot12]; norm_num, hsum, ?_⟩
    rw [hsum]
    rw [show (10006 : ℚ)/100 - 100 = 3/50 by norm_num]
    rw [abs_of_pos (show (0 : ℚ) < 3/50 by norm_num)]
    norm_num

/-- C7 (amended): with a strictly positive total, the rounded weights of
the by-asset-class and by-currency distributions sum to 100 within 1/200
per group row — hence within the claimed 0.05 whenever the distribution
has at most 10 rows.  The counterexample shows both deviations from the
original claim are forced: the flat 0.05 tolerance fails for by_currency
at 12 groups, and the by_account weights sum to the cash share of the
total, not to 100. -/
theorem C7_weight_sums (s : AnalysisService) (h : 0 < totalValue s) :
    (|((getAssetClassDistribution s).map (·.weightPct)).sum - 100| ≤
      ((getAssetClassDistribution s).length : ℚ) / 200) ∧
    (|((getCurrencyDistribution s).map (·.weightPct)).sum - 100| ≤
      ((getCurrencyDistribution s).length : ℚ) / 200) ∧
    ((getAssetClassDistribution s).length ≤ 10 →
      |((getAssetClassDistribution s).map (·.weightPct)).sum - 100| ≤ (1 : ℚ)/20) ∧
    ((getCurrencyDistribution s).length ≤ 10 →
      |((getCurrencyDistribution s).map (·.weightPct)).sum - 100| ≤ (1 : ℚ)/20) := by
  have hne : totalValue s ≠ 0 := ne_of_gt h
  have h1 : |((getAssetClassDistribution s).map (·.weightPct)).sum - 100| ≤
      ((getAssetClassDistribution s).length : ℚ) / 200 :=
    distribution_weight_sum ASSET_CLASS_LABELS (·.assetClass) s hne
  have h2 : |((getCurrencyDistribution s).map (·.weightPct)).sum - 100| ≤
      ((getCurrencyDistribution s).length : ℚ) / 200 :=
    distribution_weight_sum CURRENCY_LABELS (·.currency) s hne
  refine ⟨h1, h2, ?_, ?_⟩
  · intro hlen
    have hc : ((getAssetClassDistribution s).length : ℚ) ≤ 10 := by exact_mod_cast hlen
    linarith
  · intro hlen
    have hc : ((getCurrencyDistribution s).length : ℚ) ≤ 10 := by exact_mod_cast hlen
    linarith

/-- Witness for the amended C7 on the two-row snapshot. -/
theorem C7_weight_sums_witness :
    0 < totalValue svcTwoRows ∧
    (|((getAssetClassDistribution svcTwoRows).map (·.weightPct)).sum - 100| ≤
      ((getAssetClassDistribution svcTwoRows).length : ℚ) / 200) := by
  have h : 0 < totalValue svcTwoRows := by
    norm_num [svcTwoRows, totalValue]
  exact ⟨h, (C7_weight_sums svcTwoRows h).1⟩
